import Mathlib

/-!
Verification of `sweep_predict.py` (StackMemory Sweep next-edit prediction
script).  The script reads one JSON request from standard input, builds a
deterministic text prompt, resolves/downloads a model artifact, runs local
inference, and writes exactly one JSON object (result or error envelope) to
standard output, signalling the failure class through the process exit code.

The embedding below is a shallow one: Python dictionaries parsed from JSON
become the inductive `JValue`; the external facts (model-file presence,
importability of optional libraries, download and inference outcomes, the
JSON parser) are supplied through an `Env` record; each `print` becomes an
element appended to an output trace, and `sys.exit` is modelled as an
explicit early exit carrying its code.
-/

namespace SweepPredict

/-- A JSON value, as produced by the Python `json.loads`.  Object fields keep
their textual order; `json.loads` never produces duplicate keys. -/
inductive JValue where
  | null : JValue
  | bool (b : Bool) : JValue
  | num (n : Int) : JValue
  | str (s : String) : JValue
  | arr (xs : List JValue) : JValue
  | obj (fields : List (String × JValue)) : JValue
deriving Repr

/-- One entry of `recent_diffs` after extraction: the three string fields the
script reads out of each diff dictionary. -/
structure DiffEntry where
  file_path : String
  original : String
  updated : String
deriving Repr, DecidableEq

/-- The delimiter token used by the Sweep training format
(`<|file_sep|>` in the source). -/
def fileSep : String := "<|file_sep|>"

/-- The list `prompt_parts` accumulated by `build_prompt`
(sweep_predict.py lines 76-96): context-file sections, diff sections,
then the original / current / updated sections. -/
def prompt_parts (context_files : List (String × String))
    (recent_diffs : List DiffEntry)
    (file_path original_content current_content : String) : List String :=
  (context_files.flatMap fun pc => [fileSep ++ pc.1, pc.2]) ++
  (recent_diffs.flatMap fun d =>
    [fileSep ++ d.file_path ++ ".diff", "original:", d.original,
     "updated:", d.updated]) ++
  [fileSep ++ "original/" ++ file_path, original_content,
   fileSep ++ "current/" ++ file_path, current_content,
   fileSep ++ "updated/" ++ file_path]

/-- The function build_prompt (sweep_predict.py lines 59-98): the prompt is
the parts list joined with newlines. -/
def build_prompt (context_files : List (String × String))
    (recent_diffs : List DiffEntry)
    (file_path original_content current_content : String) : String :=
  String.intercalate "\n"
    (prompt_parts context_files recent_diffs file_path original_content
      current_content)

/-- A PredictionRequest as described by the spec data model: the five
fields the prompt may depend on plus the two sampling parameters. -/
structure PredictionRequest where
  file_path : String
  current_content : String
  original_content : String
  context_files : List (String × String)
  recent_diffs : List DiffEntry
  max_tokens : Nat
  temperature : Int
deriving Repr, DecidableEq

/-- The prompt computed for a request: `predict` passes exactly the five
context/content fields of the request to `build_prompt`
(sweep_predict.py lines 114-120). -/
def promptOfRequest (r : PredictionRequest) : String :=
  build_prompt r.context_files r.recent_diffs r.file_path
    r.original_content r.current_content

/-- The single-quote character used by the Python repr of strings. -/
def pyQuote : String := String.singleton (Char.ofNat 39)

mutual

/-- Python repr of a JSON-parsed value, as used when containers are
converted to text inside an f-string. -/
def pyRepr : JValue → String
  | .null => "None"
  | .bool true => "True"
  | .bool false => "False"
  | .num n => toString n
  | .str s => pyQuote ++ s ++ pyQuote
  | .arr xs => "[" ++ pyReprList xs ++ "]"
  | .obj fs => "\x7b" ++ pyReprFields fs ++ "\x7d"

/-- Comma-separated reprs of the elements of a list value. -/
def pyReprList : List JValue → String
  | [] => ""
  | [x] => pyRepr x
  | x :: y :: xs => pyRepr x ++ ", " ++ pyReprList (y :: xs)

/-- Comma-separated reprs of the key/value pairs of a dictionary value. -/
def pyReprFields : List (String × JValue) → String
  | [] => ""
  | [kv] => pyQuote ++ kv.1 ++ pyQuote ++ ": " ++ pyRepr kv.2
  | kv :: kv2 :: fs =>
      pyQuote ++ kv.1 ++ pyQuote ++ ": " ++ pyRepr kv.2 ++ ", " ++
        pyReprFields (kv2 :: fs)

end

/-- Python str() conversion of a JSON-parsed value, as performed by
f-string interpolation: strings pass through unquoted, every other value
falls back to its repr. -/
def pyStr : JValue → String
  | .str s => s
  | v => pyRepr v

/-- Python d.get(k) on a JSON-parsed dictionary: the value of the first
field named k, if any (json.loads never yields duplicate keys). -/
def getField (fs : List (String × JValue)) (k : String) : Option JValue :=
  (fs.find? fun kv => kv.1 == k).map fun kv => kv.2

/-- Containment of sub as a contiguous run inside a character list, used
for the Python substring test `k in s`. -/
def hasSubstring (sub : List Char) : List Char → Bool
  | [] => sub.isEmpty
  | c :: t => sub.isPrefixOf (c :: t) || hasSubstring sub t

/-- The Python membership test `k in v` for a string k against a parsed
JSON value: key lookup on dictionaries, element equality on lists,
substring containment on strings, and a TypeError on the remaining
(non-iterable) values. -/
def pyContains (v : JValue) (k : String) : Except String Bool :=
  match v with
  | .obj fs => .ok (fs.any fun kv => kv.1 == k)
  | .arr xs => .ok (xs.any fun x => match x with | .str s => s == k | _ => false)
  | .str s => .ok (hasSubstring k.toList s.toList)
  | _ => .error "TypeError: argument of type is not iterable"

/-- The five arguments handed to build_prompt once extracted from the
request dictionary (sweep_predict.py lines 114-120). -/
structure BuildArgs where
  context_files : List (String × String)
  recent_diffs : List DiffEntry
  file_path : String
  original_content : String
  current_content : String
deriving Repr, DecidableEq

/-- Extraction of one recent_diffs entry: `diff[...]` accesses raise a
KeyError when the key is absent, and a non-string original/updated block
later breaks the string join with a TypeError. -/
def extractDiff : JValue → Except String DiffEntry
  | .obj fs => do
      let fp ← match getField fs "file_path" with
        | some v => Except.ok (pyStr v)
        | none => Except.error "KeyError: file_path"
      let o ← match getField fs "original" with
        | some (.str s) => Except.ok s
        | some _ => Except.error "TypeError: expected str instance"
        | none => Except.error "KeyError: original"
      let u ← match getField fs "updated" with
        | some (.str s) => Except.ok s
        | some _ => Except.error "TypeError: expected str instance"
        | none => Except.error "KeyError: updated"
      Except.ok ⟨fp, o, u⟩
  | _ => Except.error "TypeError: diff entry is not a dictionary"

/-- Extraction of the context_files mapping: `.items()` needs a
dictionary, and a non-string content later breaks the string join. -/
def extractContextFiles : JValue → Except String (List (String × String))
  | .obj fs => fs.mapM fun kv => match kv.2 with
      | .str s => Except.ok (kv.1, s)
      | _ => Except.error "TypeError: expected str instance"
  | _ => Except.error "AttributeError: object has no attribute items"

/-- Python d[k]: the value when the key is there, a KeyError otherwise. -/
def requireField (fs : List (String × JValue)) (k : String) :
    Except String JValue :=
  match getField fs k with
  | some v => Except.ok v
  | none => Except.error ("KeyError: " ++ k)

/-- A value that takes part in the final string join must be a string;
anything else breaks the join with a TypeError. -/
def requireStr : JValue → Except String String
  | .str s => Except.ok s
  | _ => Except.error "TypeError: expected str instance"

/-- Extraction of the recent_diffs sequence: a list whose every entry is
a diff dictionary; anything else raises. -/
def extractDiffs : JValue → Except String (List DiffEntry)
  | .arr xs => xs.mapM extractDiff
  | _ => Except.error "TypeError: recent_diffs is not a list of dictionaries"

/-- The argument extraction performed by `predict` at the build_prompt
call site (sweep_predict.py lines 114-120): context_files defaults to the
empty mapping, recent_diffs to the empty list, original_content to
current_content; file_path and current_content raise a KeyError when
absent; values that cannot take part in the string join raise. -/
def extractBuildArgs (fs : List (String × JValue)) : Except String BuildArgs := do
  let cfv := (getField fs "context_files").getD (.obj [])
  let rdv := (getField fs "recent_diffs").getD (.arr [])
  let fpv ← requireField fs "file_path"
  let ccv ← requireField fs "current_content"
  let ocv := (getField fs "original_content").getD ccv
  let context_files ← extractContextFiles cfv
  let recent_diffs ← extractDiffs rdv
  let original_content ← requireStr ocv
  let current_content ← requireStr ccv
  Except.ok ⟨context_files, recent_diffs, pyStr fpv, original_content,
    current_content⟩

/-- One JSON object printed by the script, tagged by the dictionary shape
built at the corresponding print site; each constructor carries the
variable parts of that dictionary. -/
inductive OutMsg where
  | noInput (message : String)
  | invalidJson (message : String)
  | missingField (message : String)
  | hfHubMissing (message : String)
  | downloadFailed (message : String)
  | llamaMissing (message : String)
  | predictionFailed (message : String)
  | success (predicted_content : String) (file_path : JValue)
      (latency_ms : Nat) (tokens_generated : Nat)
  | unexpected (message : String)
  | statusDownloading
  | statusDownloaded (path : String)
deriving Repr

/-- What the model call returns on success: the generated text plus the
latency and completion-token counters read off the llama output. -/
structure InferenceOutput where
  text : String
  latency_ms : Nat
  completion_tokens : Nat
deriving Repr, DecidableEq

/-- The external facts one invocation runs against: the home directory,
whether the model file is already cached, whether the two optional
libraries import, and the outcomes of the download and of the model
load-and-generate call (Except.error is a raised exception). -/
structure Env where
  home : String
  modelExists : Bool
  hfAvailable : Bool
  download : Except String String
  llamaAvailable : Bool
  inference : Except String InferenceOutput
deriving Repr

/-- MODEL_FILENAME constant (sweep_predict.py line 18). -/
def MODEL_FILENAME : String := "sweep-next-edit-1.5b.q8_0.v2.gguf"

/-- MODEL_DIR constant (sweep_predict.py line 19). -/
def MODEL_DIR (home : String) : String := home ++ "/.stackmemory/models/sweep"

/-- The cached model path MODEL_DIR / MODEL_FILENAME
(sweep_predict.py line 24). -/
def model_path (home : String) : String :=
  MODEL_DIR home ++ "/" ++ MODEL_FILENAME

/-- How get_model_path ends: returning a path, or terminating the process
via sys.exit. -/
inductive GetModelOutcome where
  | ok (path : String)
  | exited (code : Nat)
deriving Repr

/-- The observable trace of one get_model_path call: what it printed to
each stream, whether it touched the network, whether it created the cache
directory, and how it ended. -/
structure GetModelTrace where
  stdout : List OutMsg
  stderr : List OutMsg
  network : Bool
  mkdirCalled : Bool
  outcome : GetModelOutcome
deriving Repr

/-- The function get_model_path (sweep_predict.py lines 22-56): return the
cached path if the file exists; otherwise announce the download on stderr,
then fail with exit code 1 if huggingface_hub is missing, else create the
cache directory and download, failing with exit code 1 on any error. -/
def get_model_path (env : Env) : GetModelTrace :=
  if env.modelExists then
    ⟨[], [], false, false, .ok (model_path env.home)⟩
  else if env.hfAvailable = false then
    ⟨[.hfHubMissing "Run: pip install huggingface_hub llama-cpp-python"],
     [.statusDownloading], false, false, .exited 1⟩
  else
    match env.download with
    | .ok p =>
        ⟨[], [.statusDownloading, .statusDownloaded p], true, true, .ok p⟩
    | .error m =>
        ⟨[.downloadFailed m], [.statusDownloading], true, true, .exited 1⟩

/-- How predict ends: returning a result dictionary, terminating the
process (a sys.exit from get_model_path), or raising an exception that
propagates to main. -/
inductive PredictOutcome where
  | ret (v : OutMsg)
  | exited (code : Nat)
  | raised (message : String)
deriving Repr

/-- The observable trace of one predict call, with the built prompt kept
as a ghost field (the llama call consumes it). -/
structure PredictTrace where
  stdout : List OutMsg
  stderr : List OutMsg
  prompt : Option String
  outcome : PredictOutcome
deriving Repr

/-- The function predict (sweep_predict.py lines 101-157): probe llama_cpp
(returning an error dictionary if missing), resolve the model path, build
the prompt from the request dictionary, then load the model and generate,
wrapping any runtime failure into a prediction_failed dictionary. -/
def predict (env : Env) (input_data : JValue) : PredictTrace :=
  if env.llamaAvailable = false then
    ⟨[], [], none, .ret (.llamaMissing "Run: pip install llama-cpp-python")⟩
  else
    let g := get_model_path env
    match g.outcome with
    | .exited c => ⟨g.stdout, g.stderr, none, .exited c⟩
    | .ok _path =>
      match input_data with
      | .obj fs =>
        match extractBuildArgs fs with
        | .error m => ⟨g.stdout, g.stderr, none, .raised m⟩
        | .ok a =>
          let prompt := build_prompt a.context_files a.recent_diffs
            a.file_path a.original_content a.current_content
          match env.inference with
          | .error m =>
              ⟨g.stdout, g.stderr, some prompt, .ret (.predictionFailed m)⟩
          | .ok r =>
              ⟨g.stdout, g.stderr, some prompt,
               .ret (.success r.text ((getField fs "file_path").getD .null)
                 r.latency_ms r.completion_tokens)⟩
      | _ => ⟨g.stdout, g.stderr, none,
              .raised "AttributeError: object has no attribute get"⟩

/-- The observable trace of one whole invocation: everything printed to
standard output and to standard error, the process exit code, and a ghost
flag recording whether control reached the predict call. -/
structure RunTrace where
  stdout : List OutMsg
  stderr : List OutMsg
  exitCode : Nat
  reachedPredict : Bool
deriving Repr

/-- The whitespace class of the Python str.strip default: the code points
the CPython unicode whitespace table marks (0x09-0x0D, 0x1C-0x1F, space,
NEL, NBSP, Ogham space mark, the 0x2000-0x200A spaces, line and paragraph
separators, narrow no-break space, medium mathematical space, ideographic
space). -/
def isPyWhitespace (c : Char) : Bool :=
  (0x09 ≤ c.toNat && c.toNat ≤ 0x0d) ||
  (0x1c ≤ c.toNat && c.toNat ≤ 0x1f) ||
  c.toNat == 0x20 || c.toNat == 0x85 || c.toNat == 0xa0 ||
  c.toNat == 0x1680 ||
  (0x2000 ≤ c.toNat && c.toNat ≤ 0x200a) ||
  c.toNat == 0x2028 || c.toNat == 0x2029 || c.toNat == 0x202f ||
  c.toNat == 0x205f || c.toNat == 0x3000

/-- Python input_text.strip(): leading and trailing whitespace removed. -/
def pyStrip (s : String) : String :=
  String.mk
    (((s.data.dropWhile isPyWhitespace).reverse.dropWhile
        isPyWhitespace).reverse)

/-- The function main (sweep_predict.py lines 160-188), with the JSON
parser supplied as an oracle: reject empty/whitespace input, parse,
validate the presence of file_path then current_content, run predict and
print its result; json.JSONDecodeError maps to invalid_json and any other
exception to unexpected, both with exit code 1; a sys.exit inside predict
passes through untouched. -/
def runMain (env : Env) (parse : String → Except String JValue)
    (stdin : String) : RunTrace :=
  if pyStrip stdin = "" then
    ⟨[.noInput "No input provided"], [], 1, false⟩
  else
    match parse stdin with
    | .error m => ⟨[.invalidJson m], [], 1, false⟩
    | .ok input_data =>
      match pyContains input_data "file_path" with
      | .error m => ⟨[.unexpected m], [], 1, false⟩
      | .ok false => ⟨[.missingField "file_path is required"], [], 1, false⟩
      | .ok true =>
        match pyContains input_data "current_content" with
        | .error m => ⟨[.unexpected m], [], 1, false⟩
        | .ok false =>
            ⟨[.missingField "current_content is required"], [], 1, false⟩
        | .ok true =>
          let p := predict env input_data
          match p.outcome with
          | .ret v => ⟨p.stdout ++ [v], p.stderr, 0, true⟩
          | .exited c => ⟨p.stdout, p.stderr, c, true⟩
          | .raised m => ⟨p.stdout ++ [.unexpected m], p.stderr, 1, true⟩

/-- Helper for reasoning about String.intercalate: the text contributed by
the tail of the list, one separator before each element. -/
def sepJoin (s : String) : List String → String
  | [] => ""
  | y :: ys => s ++ y ++ sepJoin s ys

theorem intercalate_go_eq (s : String) (ys : List String) (acc : String) :
    String.intercalate.go acc s ys = acc ++ sepJoin s ys := by
  induction ys generalizing acc with
  | nil => simp [String.intercalate.go, sepJoin]
  | cons y ys ih =>
      simp [String.intercalate.go, sepJoin, ih, String.append_assoc]

theorem intercalate_cons (s x : String) (xs : List String) :
    String.intercalate s (x :: xs) = x ++ sepJoin s xs := by
  simpa [String.intercalate] using intercalate_go_eq s xs x

theorem intercalate_cons_of_ne_nil (s x : String) (xs : List String)
    (h : xs ≠ []) :
    String.intercalate s (x :: xs) = x ++ s ++ String.intercalate s xs := by
  cases xs with
  | nil => exact absurd rfl h
  | cons y ys =>
      rw [intercalate_cons, intercalate_cons, sepJoin, String.append_assoc,
        String.append_assoc]

/-- A section of the prompt as the spec describes it: its introducing
header line followed by its content lines, joined by newlines. -/
def specSectionText (header : String) (content : List String) : String :=
  String.intercalate "\n" (header :: content)

/-- Modelled on the wording of spec §4.2, for comparison with the
source-derived build_prompt: the five groups of sections in their stated
order — context files, diff pairs, original, current, and the empty
unterminated updated marker — with all sections joined by newlines. -/
def promptFromSpec (context_files : List (String × String))
    (recent_diffs : List DiffEntry)
    (file_path original_content current_content : String) : String :=
  String.intercalate "\n"
    ((context_files.map fun pc => specSectionText (fileSep ++ pc.1) [pc.2]) ++
     (recent_diffs.map fun d =>
        specSectionText (fileSep ++ d.file_path ++ ".diff")
          ["original:", d.original, "updated:", d.updated]) ++
     [specSectionText (fileSep ++ "original/" ++ file_path) [original_content],
      specSectionText (fileSep ++ "current/" ++ file_path) [current_content],
      specSectionText (fileSep ++ "updated/" ++ file_path) []])

theorem prompt_parts_ne_nil (context_files : List (String × String))
    (recent_diffs : List DiffEntry)
    (fp oc cc : String) :
    prompt_parts context_files recent_diffs fp oc cc ≠ [] := by
  unfold prompt_parts
  intro h
  have := congrArg List.length h
  simp at this

theorem string_append_left_cancel (s a b : String) (h : s ++ a = s ++ b) :
    a = b := by
  have h2 := congrArg String.data h
  simp [String.data_append] at h2
  exact String.ext h2

theorem sepJoin_append (s : String) (a b : List String) :
    sepJoin s (a ++ b) = sepJoin s a ++ sepJoin s b := by
  induction a with
  | nil => simp [sepJoin]
  | cons x xs ih => simp [sepJoin, ih, String.append_assoc]

theorem sepJoin_eq_append_intercalate (s : String) (l : List String)
    (h : l ≠ []) : sepJoin s l = s ++ String.intercalate s l := by
  cases l with
  | nil => exact absurd rfl h
  | cons x xs =>
      rw [intercalate_cons, sepJoin, String.append_assoc]

theorem sepJoin_flatten (s : String) (gs : List (List String))
    (h : ∀ g ∈ gs, g ≠ []) :
    sepJoin s gs.flatten = sepJoin s (gs.map (String.intercalate s)) := by
  induction gs with
  | nil => simp
  | cons g gs ih =>
      have hg : g ≠ [] := h g (List.mem_cons_self g gs)
      have hrest : ∀ x ∈ gs, x ≠ [] := fun x hx => h x (List.mem_cons_of_mem g hx)
      calc sepJoin s (g :: gs).flatten
          = sepJoin s g ++ sepJoin s gs.flatten := by
            simp [sepJoin_append]
        _ = (s ++ String.intercalate s g) ++
              sepJoin s (gs.map (String.intercalate s)) := by
            rw [sepJoin_eq_append_intercalate s g hg, ih hrest]
        _ = sepJoin s ((g :: gs).map (String.intercalate s)) := by
            simp [sepJoin, String.append_assoc]

theorem intercalate_flatten (s : String) (gs : List (List String))
    (hne : gs ≠ []) (h : ∀ g ∈ gs, g ≠ []) :
    String.intercalate s gs.flatten =
      String.intercalate s (gs.map (String.intercalate s)) := by
  apply string_append_left_cancel s
  have hflat : gs.flatten ≠ [] := by
    cases gs with
    | nil => exact absurd rfl hne
    | cons g gs =>
        have hg : g ≠ [] := h g (List.mem_cons_self g gs)
        simp only [List.flatten_cons]
        intro hc
        rw [List.append_eq_nil] at hc
        exact hg hc.1
  have hmap : gs.map (String.intercalate s) ≠ [] := by
    cases gs with
    | nil => exact absurd rfl hne
    | cons g gs => simp
  rw [← sepJoin_eq_append_intercalate s _ hflat,
    ← sepJoin_eq_append_intercalate s _ hmap]
  exact sepJoin_flatten s gs h

theorem sepJoin_parts_eq_sections (cf : List (String × String))
    (rd : List DiffEntry) (fp oc cc : String) :
    sepJoin "\n" (prompt_parts cf rd fp oc cc) =
      sepJoin "\n"
        ((cf.map fun pc => specSectionText (fileSep ++ pc.1) [pc.2]) ++
         (rd.map fun d =>
            specSectionText (fileSep ++ d.file_path ++ ".diff")
              ["original:", d.original, "updated:", d.updated]) ++
         [specSectionText (fileSep ++ "original/" ++ fp) [oc],
          specSectionText (fileSep ++ "current/" ++ fp) [cc],
          specSectionText (fileSep ++ "updated/" ++ fp) []]) := by
  induction cf with
  | cons pc cf ihcf =>
      have h1 : prompt_parts (pc :: cf) rd fp oc cc =
          (fileSep ++ pc.1) :: pc.2 :: prompt_parts cf rd fp oc cc := by
        simp [prompt_parts]
      rw [h1, List.map_cons, List.cons_append]
      simp only [sepJoin]
      rw [ihcf]
      simp [specSectionText, intercalate_cons, sepJoin, String.append_assoc]
  | nil =>
      induction rd with
      | cons d rd ihrd =>
          have h2 : prompt_parts [] (d :: rd) fp oc cc =
              (fileSep ++ d.file_path ++ ".diff") :: "original:" ::
                d.original :: "updated:" :: d.updated ::
                prompt_parts [] rd fp oc cc := by
            simp [prompt_parts]
          rw [h2]
          simp only [List.map_cons, List.map_nil, List.nil_append]
          simp only [sepJoin]
          rw [ihrd]
          simp [specSectionText, intercalate_cons, sepJoin,
            String.append_assoc]
      | nil =>
          simp [prompt_parts, sepJoin, specSectionText, intercalate_cons,
            String.append_assoc]

/-- Claim C2: for every PredictionRequest, the serialized prompt consists,
in strict fixed order, of one section per context_files entry (delimiter
token, path, raw content), then one section pair per recent_diffs entry in
caller order (delimiter token, path.diff, original: block, updated:
block), then a section original/file_path holding original_content, then a
section current/file_path holding current_content, then an empty
unterminated section updated/file_path, all joined by newlines: the
source-derived build_prompt coincides with the serialization transcribed
from the spec wording. -/
theorem build_prompt_refines_spec (cf : List (String × String))
    (rd : List DiffEntry) (fp oc cc : String) :
    build_prompt cf rd fp oc cc = promptFromSpec cf rd fp oc cc := by
  apply string_append_left_cancel "\n"
  unfold build_prompt promptFromSpec
  have hsec :
      ((cf.map fun pc => specSectionText (fileSep ++ pc.1) [pc.2]) ++
       (rd.map fun d =>
          specSectionText (fileSep ++ d.file_path ++ ".diff")
            ["original:", d.original, "updated:", d.updated]) ++
       [specSectionText (fileSep ++ "original/" ++ fp) [oc],
        specSectionText (fileSep ++ "current/" ++ fp) [cc],
        specSectionText (fileSep ++ "updated/" ++ fp) []]) ≠ [] := by
    simp
  rw [← sepJoin_eq_append_intercalate _ _ (prompt_parts_ne_nil cf rd fp oc cc),
    ← sepJoin_eq_append_intercalate _ _ hsec]
  exact sepJoin_parts_eq_sections cf rd fp oc cc

/-- Claim C3: the prompt is a pure deterministic function of context_files
(with ordering), recent_diffs (with ordering), file_path,
original_content and current_content: two requests equal on those five
fields — whatever their max_tokens and temperature — produce byte-identical
prompts. -/
theorem prompt_deterministic (r1 r2 : PredictionRequest)
    (h1 : r1.context_files = r2.context_files)
    (h2 : r1.recent_diffs = r2.recent_diffs)
    (h3 : r1.file_path = r2.file_path)
    (h4 : r1.original_content = r2.original_content)
    (h5 : r1.current_content = r2.current_content) :
    promptOfRequest r1 = promptOfRequest r2 := by
  unfold promptOfRequest
  rw [h1, h2, h3, h4, h5]

/-- Witness for C3: two concrete requests that differ only in max_tokens
and temperature get byte-identical prompts. -/
theorem prompt_deterministic_witness :
    promptOfRequest ⟨"a.py", "body", "orig", [("b.py", "ctx")],
        [⟨"c.py", "o", "u"⟩], 512, 0⟩ =
      promptOfRequest ⟨"a.py", "body", "orig", [("b.py", "ctx")],
        [⟨"c.py", "o", "u"⟩], 64, 1⟩ :=
  prompt_deterministic _ _ rfl rfl rfl rfl rfl

/-- Claim C4: with empty context_files and empty recent_diffs the
serialization emits exactly the three delimiter-introduced sections
original/file_path (holding original_content), current/file_path (holding
current_content) and the empty unterminated updated/file_path marker: the
parts list is exactly those five strings and the joined prompt is their
newline join, ending on the updated marker with nothing after it. -/
theorem prompt_empty_context_three_sections (fp oc cc : String) :
    prompt_parts [] [] fp oc cc =
      [fileSep ++ "original/" ++ fp, oc,
       fileSep ++ "current/" ++ fp, cc,
       fileSep ++ "updated/" ++ fp] ∧
    build_prompt [] [] fp oc cc =
      fileSep ++ "original/" ++ fp ++ "\n" ++ oc ++ "\n" ++
        fileSep ++ "current/" ++ fp ++ "\n" ++ cc ++ "\n" ++
        fileSep ++ "updated/" ++ fp := by
  constructor
  · simp [prompt_parts]
  · simp [build_prompt, prompt_parts, intercalate_cons, sepJoin,
      String.append_assoc]

theorem any_key (fs : List (String × JValue)) (k : String) :
    (fs.any fun kv => kv.1 == k) = (getField fs k).isSome := by
  rcases h : fs.find? (fun kv => kv.1 == k) with _ | kv
  · have hfalse : (fs.any fun kv => kv.1 == k) = false := by
      rw [List.any_eq_false]
      intro x hx
      simpa using List.find?_eq_none.mp h x hx
    simp [getField, h, hfalse]
  · have hp : (fun kv : String × JValue => kv.1 == k) kv = true :=
      @List.find?_some _ (fun kv : String × JValue => kv.1 == k) kv fs h
    have htrue : (fs.any fun kv => kv.1 == k) = true :=
      List.any_eq_true.mpr ⟨kv, List.mem_of_find?_eq_some h, hp⟩
    simp [getField, h, htrue]

/-- Claim C8: when the cached model file already exists, get_model_path
returns that path at once — with no network access, no cache-directory
write, and nothing printed on either stream — so a present artifact is
never re-downloaded. -/
theorem cache_hit_no_network (env : Env) (h : env.modelExists = true) :
    get_model_path env = ⟨[], [], false, false, .ok (model_path env.home)⟩ := by
  simp [get_model_path, h]

/-- Witness for C8: a cache-hit resolution returns the cached path
untouched even in an environment where every download facility is
broken. -/
theorem cache_hit_no_network_witness :
    get_model_path ⟨"/home/u", true, false, .error "net down", false,
        .error "no backend"⟩ =
      ⟨[], [], false, false, .ok (model_path "/home/u")⟩ :=
  cache_hit_no_network _ rfl

/-- Claim C6: empty or whitespace-only standard input yields the
InvalidInput envelope with exit code 1 whatever the JSON parser would say
(the check precedes parsing), and nonempty input on which the parser
fails yields the InvalidJson envelope carrying the parser message, exit
code 1. -/
theorem input_validation_before_parse (env : Env)
    (parse : String → Except String JValue) (stdin : String) :
    (pyStrip stdin = "" →
      runMain env parse stdin =
        ⟨[.noInput "No input provided"], [], 1, false⟩) ∧
    (∀ m, pyStrip stdin ≠ "" → parse stdin = .error m →
      runMain env parse stdin = ⟨[.invalidJson m], [], 1, false⟩) := by
  constructor
  · intro h
    simp [runMain, h]
  · intro m h hp
    simp [runMain, h, hp]

/-- Witness for C6: whitespace input is rejected as InvalidInput even
under a parser that would fail, and a concrete non-JSON input is rejected
as InvalidJson carrying the parser message. -/
theorem input_validation_before_parse_witness :
    runMain ⟨"/h", false, false, .error "e", false, .error "e"⟩
        (fun _ => .error "Expecting value: line 1 column 1 (char 0)")
        "  " =
      ⟨[.noInput "No input provided"], [], 1, false⟩ ∧
    runMain ⟨"/h", false, false, .error "e", false, .error "e"⟩
        (fun _ => .error "Expecting value: line 1 column 1 (char 0)")
        "nope" =
      ⟨[.invalidJson "Expecting value: line 1 column 1 (char 0)"], [], 1,
        false⟩ :=
  ⟨(input_validation_before_parse _ _ _).1 (by decide),
   (input_validation_before_parse _ _ _).2 _ (by decide) rfl⟩

/-- Claim C5: on a successfully parsed JSON object, validation tests
file_path first — if the key is absent the MissingField envelope naming
file_path is printed and the exit code is 1 — and only then
current_content, whose absence gives the MissingField envelope naming
current_content, exit code 1. -/
theorem missing_field_validation (env : Env)
    (parse : String → Except String JValue) (stdin : String)
    (d : List (String × JValue))
    (hne : pyStrip stdin ≠ "") (hp : parse stdin = .ok (.obj d)) :
    (getField d "file_path" = none →
      runMain env parse stdin =
        ⟨[.missingField "file_path is required"], [], 1, false⟩) ∧
    ((getField d "file_path").isSome = true →
      getField d "current_content" = none →
      runMain env parse stdin =
        ⟨[.missingField "current_content is required"], [], 1, false⟩) := by
  constructor
  · intro h
    have ha : (d.any fun kv => kv.1 == "file_path") = false := by
      rw [any_key, h]
      rfl
    simp [runMain, hne, hp, pyContains, ha]
  · intro h1 h2
    have ha1 : (d.any fun kv => kv.1 == "file_path") = true := by
      rw [any_key]
      exact h1
    have ha2 : (d.any fun kv => kv.1 == "current_content") = false := by
      rw [any_key, h2]
      rfl
    simp [runMain, hne, hp, pyContains, ha1, ha2]

/-- Witness for C5: a request with only current_content is rejected for
file_path (checked first), and a request with only file_path is rejected
for current_content. -/
theorem missing_field_validation_witness :
    runMain ⟨"/h", false, false, .error "e", false, .error "e"⟩
        (fun _ => .ok (.obj [("current_content", .str "body")])) "req" =
      ⟨[.missingField "file_path is required"], [], 1, false⟩ ∧
    runMain ⟨"/h", false, false, .error "e", false, .error "e"⟩
        (fun _ => .ok (.obj [("file_path", .str "a.py")])) "req" =
      ⟨[.missingField "current_content is required"], [], 1, false⟩ :=
  ⟨(missing_field_validation ⟨"/h", false, false, .error "e", false,
      .error "e"⟩
      (fun _ => .ok (.obj [("current_content", .str "body")])) "req"
      [("current_content", .str "body")] (by decide) rfl).1 rfl,
   (missing_field_validation ⟨"/h", false, false, .error "e", false,
      .error "e"⟩
      (fun _ => .ok (.obj [("file_path", .str "a.py")])) "req"
      [("file_path", .str "a.py")] (by decide) rfl).2 rfl rfl⟩

/-- Classifier for the diagnostic progress messages (the two status
dictionaries printed during a download). -/
def isDiagnosticMsg : OutMsg → Bool
  | .statusDownloading => true
  | .statusDownloaded _ => true
  | _ => false

/-- Classifier for the missing_field error envelope. -/
def isMissingFieldMsg : OutMsg → Bool
  | .missingField _ => true
  | _ => false

theorem gmp_stdout_shape (env : Env) :
    ((get_model_path env).stdout = [] ∧
      ∃ p, (get_model_path env).outcome = .ok p) ∨
    ((get_model_path env).stdout.length = 1 ∧
      (∀ o ∈ (get_model_path env).stdout,
        isMissingFieldMsg o = false ∧ isDiagnosticMsg o = false) ∧
      (get_model_path env).outcome = .exited 1) := by
  unfold get_model_path
  split
  · exact Or.inl ⟨rfl, _, rfl⟩
  · split
    · right
      simp [isMissingFieldMsg, isDiagnosticMsg]
    · split
      · exact Or.inl ⟨rfl, _, rfl⟩
      · right
        simp [isMissingFieldMsg, isDiagnosticMsg]

theorem gmp_stderr_diag (env : Env) :
    ∀ o ∈ (get_model_path env).stderr, isDiagnosticMsg o = true := by
  unfold get_model_path
  split
  · simp
  · split
    · simp [isDiagnosticMsg]
    · split <;> simp [isDiagnosticMsg]

theorem predict_stdout_shape (env : Env) (input : JValue) :
    ((predict env input).stdout = [] ∧
      ((∃ v, (predict env input).outcome = .ret v ∧
          isMissingFieldMsg v = false ∧ isDiagnosticMsg v = false) ∨
       (∃ m, (predict env input).outcome = .raised m))) ∨
    ((predict env input).stdout.length = 1 ∧
      (∀ o ∈ (predict env input).stdout,
        isMissingFieldMsg o = false ∧ isDiagnosticMsg o = false) ∧
      ∃ c, (predict env input).outcome = .exited c) := by
  simp only [predict]
  split
  · exact Or.inl ⟨rfl, Or.inl ⟨_, rfl, rfl, rfl⟩⟩
  · rcases gmp_stdout_shape env with ⟨hs, p, hp⟩ | ⟨hlen, hall, hex⟩
    · rw [hp]
      dsimp only
      cases input with
      | obj fs =>
          dsimp only
          rcases hex2 : extractBuildArgs fs with m | a
          · exact Or.inl ⟨hs, Or.inr ⟨m, rfl⟩⟩
          · dsimp only
            rcases hinf : env.inference with m | r
            · exact Or.inl ⟨hs, Or.inl ⟨_, rfl, rfl, rfl⟩⟩
            · exact Or.inl ⟨hs, Or.inl ⟨_, rfl, rfl, rfl⟩⟩
      | null => exact Or.inl ⟨hs, Or.inr ⟨_, rfl⟩⟩
      | bool b => exact Or.inl ⟨hs, Or.inr ⟨_, rfl⟩⟩
      | num n => exact Or.inl ⟨hs, Or.inr ⟨_, rfl⟩⟩
      | str s => exact Or.inl ⟨hs, Or.inr ⟨_, rfl⟩⟩
      | arr xs => exact Or.inl ⟨hs, Or.inr ⟨_, rfl⟩⟩
    · rw [hex]
      exact Or.inr ⟨hlen, hall, 1, rfl⟩

theorem predict_stderr_diag (env : Env) (input : JValue) :
    ∀ o ∈ (predict env input).stderr, isDiagnosticMsg o = true := by
  have hg := gmp_stderr_diag env
  simp only [predict]
  split
  · simp
  · rcases houtcome : (get_model_path env).outcome with p | c
    · dsimp only
      cases input with
      | obj fs =>
          dsimp only
          rcases hex2 : extractBuildArgs fs with m | a
          · exact hg
          · dsimp only
            rcases hinf : env.inference with m | r
            · exact hg
            · exact hg
      | null => exact hg
      | bool b => exact hg
      | num n => exact hg
      | str s => exact hg
      | arr xs => exact hg
    · exact hg

/-- Claim C9: every invocation writes exactly one JSON object to standard
output — a PredictionResult or an ErrorEnvelope, never both and never
more than one line — while the diagnostic download-progress messages are
confined to standard error: standard output never carries one, and
standard error carries nothing but them. -/
theorem single_output_per_invocation (env : Env)
    (parse : String → Except String JValue) (stdin : String) :
    (runMain env parse stdin).stdout.length = 1 ∧
    (∀ o ∈ (runMain env parse stdin).stdout, isDiagnosticMsg o = false) ∧
    (∀ o ∈ (runMain env parse stdin).stderr, isDiagnosticMsg o = true) := by
  simp only [runMain]
  split
  · simp [isDiagnosticMsg]
  · split
    · simp [isDiagnosticMsg]
    · split
      · simp [isDiagnosticMsg]
      · simp [isDiagnosticMsg]
      · split
        · simp [isDiagnosticMsg]
        · simp [isDiagnosticMsg]
        · rename JValue => input_data
          rcases predict_stdout_shape env input_data with
            ⟨hs, ⟨v, hv, _, hvd⟩ | ⟨m, hm⟩⟩ | ⟨hlen, hall, c, hc⟩
          · rw [hv]
            dsimp only
            refine ⟨by simp [hs], ?_, predict_stderr_diag env input_data⟩
            intro o ho
            rw [hs] at ho
            simp at ho
            rw [ho]
            exact hvd
          · rw [hm]
            dsimp only
            refine ⟨by simp [hs], ?_, predict_stderr_diag env input_data⟩
            intro o ho
            rw [hs] at ho
            simp at ho
            rw [ho]
            rfl
          · rw [hc]
            dsimp only
            exact ⟨hlen, fun o ho => (hall o ho).2,
              predict_stderr_diag env input_data⟩

/-- Claim C10: validation tests only key presence — a parsed object
carrying the keys file_path and current_content passes validation
whatever their values (null included): control reaches the predict stage
and no MissingField envelope is ever printed. -/
theorem presence_only_validation (env : Env)
    (parse : String → Except String JValue) (stdin : String)
    (d : List (String × JValue))
    (hne : pyStrip stdin ≠ "") (hp : parse stdin = .ok (.obj d))
    (h1 : (getField d "file_path").isSome = true)
    (h2 : (getField d "current_content").isSome = true) :
    (runMain env parse stdin).reachedPredict = true ∧
    ∀ o ∈ (runMain env parse stdin).stdout, isMissingFieldMsg o = false := by
  have ha1 : (d.any fun kv => kv.1 == "file_path") = true := by
    rw [any_key]
    exact h1
  have ha2 : (d.any fun kv => kv.1 == "current_content") = true := by
    rw [any_key]
    exact h2
  simp only [runMain, hp, pyContains, ha1, ha2, if_neg hne]
  rcases predict_stdout_shape env (.obj d) with
    ⟨hs, ⟨v, hv, hvm, _⟩ | ⟨m, hm⟩⟩ | ⟨hlen, hall, c, hc⟩
  · rw [hv]
    dsimp only
    refine ⟨rfl, ?_⟩
    intro o ho
    rw [hs] at ho
    simp at ho
    rw [ho]
    exact hvm
  · rw [hm]
    dsimp only
    refine ⟨rfl, ?_⟩
    intro o ho
    rw [hs] at ho
    simp at ho
    rw [ho]
    rfl
  · rw [hc]
    dsimp only
    exact ⟨rfl, fun o ho => (hall o ho).1⟩

/-- Witness for C10: a request whose file_path and current_content are
both null passes validation, reaches the predict stage, and the single
envelope it prints (llama_cpp missing) is not a MissingField error. -/
theorem presence_only_validation_witness :
    (runMain ⟨"/h", false, false, .error "e", false, .error "e"⟩
        (fun _ => .ok (.obj [("file_path", .null),
          ("current_content", .null)])) "req").reachedPredict = true ∧
    isMissingFieldMsg
        (OutMsg.llamaMissing "Run: pip install llama-cpp-python") = false := by
  have h := presence_only_validation
    ⟨"/h", false, false, .error "e", false, .error "e"⟩
    (fun _ => .ok (.obj [("file_path", .null), ("current_content", .null)]))
    "req" [("file_path", JValue.null), ("current_content", JValue.null)]
    (by decide) rfl rfl rfl
  exact ⟨h.1, h.2 (OutMsg.llamaMissing "Run: pip install llama-cpp-python")
    (List.mem_singleton_self _)⟩

theorem prompt_parts_cons_context (pc : String × String)
    (cf : List (String × String)) (rd : List DiffEntry)
    (fp oc cc : String) :
    prompt_parts (pc :: cf) rd fp oc cc =
      (fileSep ++ pc.1) :: pc.2 :: prompt_parts cf rd fp oc cc := by
  simp [prompt_parts]

theorem prompt_parts_cons_diff (d : DiffEntry) (rd : List DiffEntry)
    (fp oc cc : String) :
    prompt_parts [] (d :: rd) fp oc cc =
      (fileSep ++ d.file_path ++ ".diff") :: "original:" :: d.original ::
        "updated:" :: d.updated :: prompt_parts [] rd fp oc cc := by
  simp [prompt_parts]

theorem prompt_parts_original_entry (cf : List (String × String))
    (rd : List DiffEntry) (fp oc cc : String) :
    (prompt_parts cf rd fp oc cc)[2 * cf.length + 5 * rd.length + 1]? =
      some oc := by
  induction cf with
  | cons pc cf ih =>
      rw [prompt_parts_cons_context]
      have harith : 2 * (pc :: cf).length + 5 * rd.length + 1 =
          (2 * cf.length + 5 * rd.length + 1) + 1 + 1 := by
        simp [List.length_cons]
        ring
      rw [harith, List.getElem?_cons_succ, List.getElem?_cons_succ]
      exact ih
  | nil =>
      induction rd with
      | cons d rd ihrd =>
          rw [prompt_parts_cons_diff]
          have harith :
              2 * ([] : List (String × String)).length +
                  5 * (d :: rd).length + 1 =
                (2 * ([] : List (String × String)).length +
                    5 * rd.length + 1) + 1 + 1 + 1 + 1 + 1 := by
            simp [List.length_cons]
            ring
          rw [harith, List.getElem?_cons_succ, List.getElem?_cons_succ,
            List.getElem?_cons_succ, List.getElem?_cons_succ,
            List.getElem?_cons_succ]
          exact ihrd
      | nil => rfl

theorem except_bind_ok {ε α β : Type} (e : Except ε α)
    (k : α → Except ε β) (b : β) (h : (e >>= k) = .ok b) :
    ∃ x, e = .ok x ∧ k x = .ok b := by
  cases e with
  | error m => simp [Bind.bind, Except.bind] at h
  | ok x =>
      refine ⟨x, rfl, ?_⟩
      simpa [Bind.bind, Except.bind] using h

theorem except_ok_bind {ε α β : Type} (x : α) (k : α → Except ε β) :
    (Except.ok x >>= k) = k x := rfl

theorem extract_defaults_original (fs : List (String × JValue)) (c : String)
    (h1 : getField fs "original_content" = none)
    (h2 : getField fs "current_content" = some (.str c))
    (a : BuildArgs) (ha : extractBuildArgs fs = .ok a) :
    a.original_content = c ∧ a.current_content = c := by
  have hreq : requireField fs "current_content" = Except.ok (.str c) := by
    simp [requireField, h2]
  unfold extractBuildArgs at ha
  rw [h1, hreq] at ha
  rcases except_bind_ok _ _ _ ha with ⟨fpv, _, ha2⟩
  simp only [except_ok_bind, Option.getD_none, requireStr] at ha2
  rcases except_bind_ok _ _ _ ha2 with ⟨cfl, _, ha3⟩
  rcases except_bind_ok _ _ _ ha3 with ⟨rdl, _, ha4⟩
  simp only [except_ok_bind, Except.ok.injEq] at ha4
  rw [← ha4]
  exact ⟨rfl, rfl⟩

/-- Claim C7: a request that omits original_content is built with
original_content defaulted to current_content — whenever argument
extraction succeeds, the extracted original_content equals the request
current_content, and in the serialized prompt the part directly following
the original/file_path header is exactly that current_content. -/
theorem default_original_content (fs : List (String × JValue)) (c : String)
    (h1 : getField fs "original_content" = none)
    (h2 : getField fs "current_content" = some (.str c))
    (a : BuildArgs) (ha : extractBuildArgs fs = .ok a) :
    a.original_content = c ∧
    (prompt_parts a.context_files a.recent_diffs a.file_path
        a.original_content a.current_content)[2 * a.context_files.length +
          5 * a.recent_diffs.length + 1]? = some c := by
  have h := extract_defaults_original fs c h1 h2 a ha
  refine ⟨h.1, ?_⟩
  rw [h.1]
  exact prompt_parts_original_entry a.context_files a.recent_diffs
    a.file_path c a.current_content

/-- Witness for C7: a two-field request (file_path and current_content
only) extracts with original_content equal to current_content, and that
value sits right after the original/ header of the prompt. -/
theorem default_original_content_witness :
    (⟨[], [], "a.py", "body", "body"⟩ : BuildArgs).original_content =
        "body" ∧
    (prompt_parts ([] : List (String × String)) ([] : List DiffEntry)
        "a.py" "body" "body")[1]? = some "body" := by
  have h := default_original_content
    [("file_path", JValue.str "a.py"), ("current_content", JValue.str "body")]
    "body" rfl rfl ⟨[], [], "a.py", "body", "body"⟩ rfl
  exact h

/-- Counterexample to claim C1 as stated: a validated request whose model
download fails has its DownloadFailed envelope printed as the single JSON
object on standard output, yet the process exits with code 1, not 0 — the
sys.exit(1) calls inside get_model_path bypass the reported-not-fatal
policy the claim describes. -/
theorem prediction_stage_error_exit_counterexample :
    runMain ⟨"/h", false, true, .error "network unreachable", true,
        .error "x"⟩
      (fun _ => .ok (.obj [("file_path", .str "a.py"),
        ("current_content", .str "pass")])) "req" =
      ⟨[.downloadFailed "network unreachable"], [.statusDownloading], 1,
        true⟩ := rfl

/-- Claim C1 (amended): once a parsed request passes validation and
reaches the prediction stage, every prediction-stage error is emitted as
the single JSON object on standard output, but the exit code depends on
the error: a missing llama_cpp dependency or a failed inference exits
with code 0, while a missing huggingface_hub dependency or a failed
download exits with code 1. -/
theorem prediction_stage_error_reporting (env : Env)
    (parse : String → Except String JValue) (stdin : String)
    (d : List (String × JValue))
    (hne : pyStrip stdin ≠ "") (hp : parse stdin = .ok (.obj d))
    (h1 : (getField d "file_path").isSome = true)
    (h2 : (getField d "current_content").isSome = true) :
    (env.llamaAvailable = false →
      runMain env parse stdin =
        ⟨[.llamaMissing "Run: pip install llama-cpp-python"], [], 0,
          true⟩) ∧
    (env.llamaAvailable = true → env.modelExists = false →
      env.hfAvailable = false →
      runMain env parse stdin =
        ⟨[.hfHubMissing "Run: pip install huggingface_hub llama-cpp-python"],
         [.statusDownloading], 1, true⟩) ∧
    (∀ m, env.llamaAvailable = true → env.modelExists = false →
      env.hfAvailable = true → env.download = .error m →
      runMain env parse stdin =
        ⟨[.downloadFailed m], [.statusDownloading], 1, true⟩) ∧
    (∀ m a, env.llamaAvailable = true → env.modelExists = true →
      extractBuildArgs d = .ok a → env.inference = .error m →
      runMain env parse stdin = ⟨[.predictionFailed m], [], 0, true⟩) := by
  have ha1 : (d.any fun kv => kv.1 == "file_path") = true := by
    rw [any_key]
    exact h1
  have ha2 : (d.any fun kv => kv.1 == "current_content") = true := by
    rw [any_key]
    exact h2
  refine ⟨?_, ?_, ?_, ?_⟩
  · intro hl
    simp [runMain, hp, pyContains, ha1, ha2, if_neg hne, predict, hl]
  · intro hl hm hh
    simp [runMain, hp, pyContains, ha1, ha2, if_neg hne, predict,
      get_model_path, hl, hm, hh]
  · intro m hl hm hh hd
    simp [runMain, hp, pyContains, ha1, ha2, if_neg hne, predict,
      get_model_path, hl, hm, hh, hd]
  · intro m a hl hm hx hi
    simp [runMain, hp, pyContains, ha1, ha2, if_neg hne, predict,
      get_model_path, hl, hm, hx, hi]

/-- Witness for the amended C1: with llama_cpp absent the error envelope
exits 0, and with everything available but inference failing the
prediction_failed envelope also exits 0. -/
theorem prediction_stage_error_reporting_witness :
    runMain ⟨"/h", true, true, .ok "p", false, .error "boom"⟩
        (fun _ => .ok (.obj [("file_path", .str "a.py"),
          ("current_content", .str "pass")])) "req" =
      ⟨[.llamaMissing "Run: pip install llama-cpp-python"], [], 0, true⟩ ∧
    runMain ⟨"/h", true, true, .ok "p", true, .error "boom"⟩
        (fun _ => .ok (.obj [("file_path", .str "a.py"),
          ("current_content", .str "pass")])) "req" =
      ⟨[.predictionFailed "boom"], [], 0, true⟩ := by
  constructor
  · exact (prediction_stage_error_reporting _ _ _
      [("file_path", JValue.str "a.py"),
        ("current_content", JValue.str "pass")]
      (by decide) rfl rfl rfl).1 rfl
  · exact (prediction_stage_error_reporting _ _ _
      [("file_path", JValue.str "a.py"),
        ("current_content", JValue.str "pass")]
      (by decide) rfl rfl rfl).2.2.2 "boom"
      ⟨[], [], "a.py", "pass", "pass"⟩ rfl rfl rfl rfl

end SweepPredict
